import Mathlib

/-!
# Verification of the timesheet text-to-record extraction engine

Shallow embedding of `src/services/textParser.ts` (the rule-based OCR
text-to-record extraction engine) and proofs about its specification.

The JavaScript source works by applying a fixed set of regular expressions
to the input text.  Each regular expression is translated here into an
explicit, executable matching function over `List Char` that reproduces the
JS semantics relevant to it: leftmost-first search, greedy/lazy
quantifiers with backtracking where the character classes overlap, ASCII
case-insensitivity for the `/i` flag, and word boundaries `\b`.
Non-determinism (`Math.random()` item ids) and the ambient current date
(`new Date().toLocaleDateString`) enter as explicit parameters, as the
engine has no other sources of impurity.
-/

namespace TimesheetAuto

/-! ## Character classes (ASCII fragment of the JS regex classes) -/

/-- JS `\s` (whitespace), restricted to the ASCII whitespace characters:
space, tab, line feed, carriage return, vertical tab, form feed. -/
def isJsWs (c : Char) : Bool :=
  c = ' ' || c = '\t' || c = '\n' || c = '\r' || c = '\x0b' || c = '\x0c'

/-- JS line terminators (what `.` refuses to match): `\n` and `\r`. -/
def isLineTerm (c : Char) : Bool :=
  c = '\n' || c = '\r'

/-- ASCII letter. -/
def isAsciiLetter (c : Char) : Bool :=
  ('a' ≤ c && c ≤ 'z') || ('A' ≤ c && c ≤ 'Z')

/-- JS `\w`: `[A-Za-z0-9_]`. -/
def isWordC (c : Char) : Bool :=
  isAsciiLetter c || c.isDigit || c = '_'

/-- ASCII lower-casing, as the `/i` flag compares letters. -/
def lowerA (c : Char) : Char :=
  if 'A' ≤ c && c ≤ 'Z' then Char.ofNat (c.toNat + 32) else c

/-! ## Generic matching machinery -/

/-- Consume the literal `pat` case-insensitively at the head of `s`,
returning the remaining characters on success. -/
def matchCI : List Char → List Char → Option (List Char)
  | [], s => some s
  | _ :: _, [] => none
  | p :: ps, c :: cs => if lowerA c = lowerA p then matchCI ps cs else none

/-- Leftmost-first regex search: try `f` at every suffix of the input
(including the empty suffix), taking the first success.  This is how an
unanchored JS regex scans. -/
def scanFirst (f : List Char → Option α) : List Char → Option α
  | [] => f []
  | s@(_ :: cs) =>
    match f s with
    | some a => some a
    | none => scanFirst f cs

/-- Leftmost-first search that also tracks the previous character, needed
for patterns beginning with a word boundary `\b`. -/
def scanFirstB (f : Option Char → List Char → Option α) :
    Option Char → List Char → Option α
  | prev, [] => f prev []
  | prev, s@(c :: cs) =>
    match f prev s with
    | some a => some a
    | none => scanFirstB f (some c) cs

/-- `pat` occurs case-insensitively somewhere in `s` (JS `/pat/i.test`). -/
def containsCI (pat : List Char) : List Char → Bool
  | [] => (matchCI pat []).isSome
  | s@(_ :: cs) => (matchCI pat s).isSome || containsCI pat cs

/-- Shortest-first split for a lazy leading group `^(.+?)` followed by the
rest of the pattern: return the shortest non-empty prefix (the group, built
up in `acc`) such that `f` matches the corresponding suffix.  `.` does not
match line terminators, so the group cannot extend across one. -/
def lazyScan (f : List Char → Option α) : List Char → List Char → Option (List Char × α)
  | _, [] => none
  | acc, c :: r =>
    if isLineTerm c then none
    else
      match f r with
      | some a => some (acc ++ [c], a)
      | none => lazyScan f (acc ++ [c]) r

/-- Greedy bounded digit group `\d{lo,hi}` in continuation style: try the
largest count first (`hi`, then `hi - 1`, ...), handing the rest of the
input to the continuation `k`; on success prepend the digits consumed.
Used by the regexes with counted digit groups. -/
def tryDigitsRange (lo : Nat) (k : List Char → Option (List Char)) :
    Nat → List Char → Option (List Char)
  | 0, _ => none
  | hi + 1, s =>
    (if hi + 1 < lo then none
     else
       let pre := s.take (hi + 1)
       if pre.length = hi + 1 && pre.all Char.isDigit then
         match k (s.drop (hi + 1)) with
         | some res => some (pre ++ res)
         | none => none
       else none).orElse
    (fun _ => tryDigitsRange lo k hi s)

/-! ## JS string primitives used by the source -/

/-- JS `String.prototype.trim`: strip whitespace from both ends. -/
def trimChars (l : List Char) : List Char :=
  ((l.dropWhile isJsWs).reverse.dropWhile isJsWs).reverse

/-- `trim` on `String`. -/
def jsTrim (s : String) : String := ⟨trimChars s.data⟩

/-- JS `str.replace(/\s+/g, '')`: removing every maximal whitespace run is
removing every whitespace character. -/
def stripWs (s : String) : String := ⟨s.data.filter (fun c => !(isJsWs c))⟩

/-- JS `||` on strings: the empty string is falsy. -/
def jsOr (a b : String) : String := if a = "" then b else a

/-- JS `str.substring(0, n)`. -/
def jsTake (s : String) (n : Nat) : String := ⟨s.data.take n⟩

/-- JS `arr.join(' ')`. -/
def joinSp (ls : List String) : String := String.intercalate " " ls

/-- Index of the first element satisfying `p` (JS `Array.findIndex`,
wrapped in an option for the `-1` case). -/
def findIdxO (p : α → Bool) : List α → Option Nat
  | [] => none
  | a :: r => if p a then some 0 else (findIdxO p r).map (· + 1)

/-- Split a character list at every `'\n'` (segments between line feeds;
empty segments are kept, the caller filters them out). -/
def splitOnNl : List Char → List (List Char)
  | [] => [[]]
  | c :: r =>
    if c = '\n' then [] :: splitOnNl r
    else
      match splitOnNl r with
      | h :: t => (c :: h) :: t
      | [] => [[c]]

/-! ## Labeled-match extractors (`firstMatch` in the source)

Each regex of the form `/Label[:\-\s]+(.+)/i` is the literal label (case
insensitive), at least one separator from `[:\-\s]`, then a greedy `(.+)`
capture.  After the maximal separator run the next character cannot be
whitespace (whitespace is a separator), hence cannot be a line terminator,
so the capture is the run of non-line-terminator characters there.  When
nothing follows the separators, the engine backtracks: `(.+)` takes the
last separator character itself, provided it is not a line terminator and
at least one separator remains. -/

/-- The separator class `[:\-\s]` (also `[\s\-:]` of item pattern 1). -/
def isSepCD (c : Char) : Bool := c = ':' || c = '-' || isJsWs c

/-- `[:\-\s]+(.+)` with JS backtracking; returns the `(.+)` capture. -/
def capAfterSeps (s : List Char) : Option (List Char) :=
  let run := s.takeWhile isSepCD
  let rest := s.dropWhile isSepCD
  match rest with
  | _ :: _ =>
    if 1 ≤ run.length then some (rest.takeWhile (fun c => !(isLineTerm c))) else none
  | [] =>
    match run.reverse.dropWhile isLineTerm with
    | c :: r2 => if 1 ≤ r2.length then some [c] else none
    | [] => none

/-- Match `Label[:\-\s]+(.+)` at the current position. -/
def labelCapAt (label : List Char) (s : List Char) : Option (List Char) :=
  match matchCI label s with
  | some r => capAfterSeps r
  | none => none

/-- Match `Word1\s{minWs,}Word2[:\-\s]+(.+)` at the current position
(`Client\s+Name`, `Contact\s*Name`). -/
def twoWordCapAt (w1 w2 : List Char) (minWs : Nat) (s : List Char) : Option (List Char) :=
  match matchCI w1 s with
  | none => none
  | some r =>
    if minWs ≤ (r.takeWhile isJsWs).length then
      match matchCI w2 (r.dropWhile isJsWs) with
      | some r2 => capAfterSeps r2
      | none => none
    else none

/-- `firstMatch` from the source: `text.match(regex)` (leftmost match) and
`m ? m[1].trim() : ''`, for a regex given as an at-position matcher that
returns the first capture group. -/
def firstMatch (tryAt : List Char → Option (List Char)) (text : String) : String :=
  match scanFirst tryAt text.data with
  | some cap => jsTrim ⟨cap⟩
  | none => ""

/-- `/Client[:\-\s]+(.+)/i` -/
def fmClient (text : String) : String :=
  firstMatch (labelCapAt "client".data) text

/-- `/Client\s+Name[:\-\s]+(.+)/i` -/
def fmClientName (text : String) : String :=
  firstMatch (twoWordCapAt "client".data "name".data 1) text

/-- `/Contact\s*Name[:\-\s]+(.+)/i` -/
def fmContactName (text : String) : String :=
  firstMatch (twoWordCapAt "contact".data "name".data 0) text

/-- `/Contact[:\-\s]+(.+)/i` -/
def fmContact (text : String) : String :=
  firstMatch (labelCapAt "contact".data) text

/-- `/Address[:\-\s]+(.+)/i` -/
def fmAddress (text : String) : String :=
  firstMatch (labelCapAt "address".data) text

/-- `/Description[:\-\s]+(.+)/i` -/
def fmDescription (text : String) : String :=
  firstMatch (labelCapAt "description".data) text

/-- `/Date[:\-\s]+(.+)/i` -/
def fmDate (text : String) : String :=
  firstMatch (labelCapAt "date".data) text

/-- The job-id character class `[A-Za-z0-9\-\/]`. -/
def isJobIdC (c : Char) : Bool :=
  isAsciiLetter c || c.isDigit || c = '-' || c = '/'

/-- `[:\-\s]*([A-Za-z0-9\-\/]+)`: maximal separator run, then the capture;
if no capture character follows, backtrack into the separator run, whose
only character also in the capture class is `'-'`, so the capture restarts
at the last `'-'` of the run. -/
def capJobId (s : List Char) : Option (List Char) :=
  let run := s.takeWhile isSepCD
  let rest := s.dropWhile isSepCD
  match rest with
  | c :: _ =>
    if isJobIdC c then some (rest.takeWhile isJobIdC)
    else
      match run.reverse.dropWhile (fun x => !(x = '-')) with
      | _ :: r2 => some ((run.drop r2.length ++ rest).takeWhile isJobIdC)
      | [] => none
  | [] =>
    match run.reverse.dropWhile (fun x => !(x = '-')) with
    | _ :: r2 => some ((run.drop r2.length ++ rest).takeWhile isJobIdC)
    | [] => none

/-- `/Job\s*No[:\-\s]*([A-Za-z0-9\-\/]+)/i` -/
def fmJobNo (text : String) : String :=
  firstMatch
    (fun s =>
      match matchCI "job".data s with
      | none => none
      | some r =>
        match matchCI "no".data (r.dropWhile isJsWs) with
        | some r2 => capJobId r2
        | none => none)
    text

/-- `/Job[:\-\s]*([A-Za-z0-9\-\/]+)/i` -/
def fmJob (text : String) : String :=
  firstMatch
    (fun s =>
      match matchCI "job".data s with
      | some r => capJobId r
      | none => none)
    text

/-! ## `parsePhone` -/

/-- The label-phone separator class `[:\s]`. -/
def isPhoneSep (c : Char) : Bool := c = ':' || isJsWs c

/-- The labeled-phone body class `[\d\s\-().]`. -/
def isPhoneBody (c : Char) : Bool :=
  c.isDigit || isJsWs c || c = '-' || c = '(' || c = ')' || c = '.'

/-- The generic-phone separator class `[\s\-().]`. -/
def isPhoneGap (c : Char) : Bool :=
  isJsWs c || c = '-' || c = '(' || c = ')' || c = '.'

/-- Index of the last element of `l` satisfying `p`, if any. -/
def lastIdxP (p : Char → Bool) (l : List Char) : Option Nat :=
  match (l.reverse.findIdx? p) with
  | some k => some (l.length - 1 - k)
  | none => none

/-- Capture `([+\d][\d\s\-().]{6,}\d)` at the current position: a leading
`+` or digit, then at least six body characters and a final digit.  The
`{6,}` run is greedy over the maximal body run, backtracking until the
next character is a digit: the capture therefore ends at the last digit of
the body run whose index (0-based within the run) is at least 6. -/
def phoneTailCap (s : List Char) : Option (List Char) :=
  match s with
  | c0 :: r =>
    if c0 = '+' || c0.isDigit then
      let run := r.takeWhile isPhoneBody
      match lastIdxP Char.isDigit run with
      | some j => if 6 ≤ j then some (c0 :: run.take (j + 1)) else none
      | none => none
    else none
  | [] => none

/-- The alternation `(?:Phone|Tel|Telephone|Mobile|M:|T:|Cell)` in source
order, then `[:\s]*` and the captured phone body. -/
def phoneLabelAt (s : List Char) : Option (List Char) :=
  let tryOne := fun (label : List Char) =>
    match matchCI label s with
    | some r => phoneTailCap (r.dropWhile isPhoneSep)
    | none => none
  match tryOne "phone".data with
  | some g => some g
  | none =>
  match tryOne "tel".data with
  | some g => some g
  | none =>
  match tryOne "telephone".data with
  | some g => some g
  | none =>
  match tryOne "mobile".data with
  | some g => some g
  | none =>
  match tryOne "m:".data with
  | some g => some g
  | none =>
  match tryOne "t:".data with
  | some g => some g
  | none => tryOne "cell".data

/-- The generic fallback
`([+]?\d{1,3}[\s\-().]*\d{2,4}[\s\-().]*\d{2,4}[\s\-().]*\d{2,4})`
at the current position.  The separator runs are maximal (their class is
disjoint from the digits), while the counted digit groups backtrack
greedily through `tryDigitsRange`. -/
def phoneGenericAt (s : List Char) : Option (List Char) :=
  let afterPlus :=
    fun (r0 : List Char) =>
      tryDigitsRange 1
        (fun r1 =>
          let gap1 := r1.takeWhile isPhoneGap
          (tryDigitsRange 2
            (fun r2 =>
              let gap2 := r2.takeWhile isPhoneGap
              (tryDigitsRange 2
                (fun r3 =>
                  let gap3 := r3.takeWhile isPhoneGap
                  (tryDigitsRange 2 (fun _ => some []) 4 (r3.drop gap3.length)).map
                    (fun g => gap3 ++ g))
                4 (r2.drop gap2.length)).map (fun g => gap2 ++ g))
            4 (r1.drop gap1.length)).map (fun g => gap1 ++ g))
        3 r0
  match s with
  | '+' :: r0 => (afterPlus r0).map (fun g => '+' :: g)
  | _ => afterPlus s

/-- `parsePhone` from the source: labeled match first, generic fallback
second, and `replace(/\s+/g, '')` applied to the capture. -/
def parsePhone (text : String) : String :=
  match scanFirst phoneLabelAt text.data with
  | some g => stripWs ⟨g⟩
  | none =>
    match scanFirst phoneGenericAt text.data with
    | some g => stripWs ⟨g⟩
    | none => ""

/-! ## `parseDate` -/

/-- `\b` before a word character: the previous character (if any) is not a
word character. -/
def bBefore (prev : Option Char) : Bool :=
  match prev with
  | none => true
  | some c => !(isWordC c)

/-- `\b` after a word character: the next character (if any) is not a word
character. -/
def bAfter (s : List Char) : Bool :=
  match s with
  | [] => true
  | c :: _ => !(isWordC c)

/-- `(\b\d{1,2}[\/\-]\d{1,2}[\/\-]\d{2,4}\b)` at the current position. -/
def dateNumericAt (prev : Option Char) (s : List Char) : Option (List Char) :=
  if bBefore prev then
    tryDigitsRange 1
      (fun r1 =>
        match r1 with
        | c1 :: r1' =>
          if c1 = '/' || c1 = '-' then
            (tryDigitsRange 1
              (fun r2 =>
                match r2 with
                | c2 :: r2' =>
                  if c2 = '/' || c2 = '-' then
                    (tryDigitsRange 2
                      (fun r3 => if bAfter r3 then some [] else none)
                      4 r2').map (fun g => c2 :: g)
                  else none
                | [] => none)
              2 r1').map (fun g => c1 :: g)
          else none
        | [] => none)
      2 s
  else none

/-- `(\b\d{4}-\d{1,2}-\d{1,2}\b)` at the current position. -/
def dateIsoAt (prev : Option Char) (s : List Char) : Option (List Char) :=
  if bBefore prev then
    tryDigitsRange 4
      (fun r1 =>
        match r1 with
        | '-' :: r1' =>
          (tryDigitsRange 1
            (fun r2 =>
              match r2 with
              | '-' :: r2' =>
                (tryDigitsRange 1
                  (fun r3 => if bAfter r3 then some [] else none)
                  2 r2').map (fun g => '-' :: g)
              | _ => none)
            2 r1').map (fun g => '-' :: g)
        | _ => none)
      4 s
  else none

/-- Try an alternation of case-insensitive literals in order; on success
return the matched characters as they appear in the text, and the rest. -/
def altCI (alts : List (List Char)) (s : List Char) : Option (List Char × List Char) :=
  match alts with
  | [] => none
  | m :: ms =>
    match matchCI m s with
    | some r => some (s.take m.length, r)
    | none => altCI ms s

/-- The month alternation `(Jan|Feb|Mar|Apr|May|Jun|Jul|Aug|Sep|Oct|Nov|Dec)`
in source order. -/
def monthAltAt (s : List Char) : Option (List Char × List Char) :=
  altCI
    ["jan".data, "feb".data, "mar".data, "apr".data, "may".data, "jun".data,
     "jul".data, "aug".data, "sep".data, "oct".data, "nov".data, "dec".data] s

/-- `(\b\d{1,2}\s+(Jan|...)[a-z]*\s+\d{4}\b)/i` at the current position.
With `/i`, `[a-z]*` is a run of ASCII letters. -/
def dateMonthNameAt (prev : Option Char) (s : List Char) : Option (List Char) :=
  if bBefore prev then
    tryDigitsRange 1
      (fun r1 =>
        let ws1 := r1.takeWhile isJsWs
        if ws1.length = 0 then none
        else
          match monthAltAt (r1.drop ws1.length) with
          | none => none
          | some (mchars, r2) =>
            let letters := r2.takeWhile isAsciiLetter
            let r3 := r2.drop letters.length
            let ws2 := r3.takeWhile isJsWs
            if ws2.length = 0 then none
            else
              (tryDigitsRange 4
                (fun r4 => if bAfter r4 then some [] else none)
                4 (r3.drop ws2.length)).map
                (fun g => ws1 ++ mchars ++ letters ++ ws2 ++ g))
      2 s
  else none

/-- `parseDate` from the source: the three date regexes in order, the
matched text returned verbatim, empty string when none matches. -/
def parseDate (text : String) : String :=
  match scanFirstB dateNumericAt none text.data with
  | some m => ⟨m⟩
  | none =>
    match scanFirstB dateIsoAt none text.data with
    | some m => ⟨m⟩
    | none =>
      match scanFirstB dateMonthNameAt none text.data with
      | some m => ⟨m⟩
      | none => ""

/-! ## `parseItemsFromLines` -/

/-- The header-line filter
`/^(client|contact|address|job|date|description|notes|supervisor|telephone|phone)[:\s]/i`:
one of the label words at the start of the line, immediately followed by a
colon or whitespace.  No label of the alternation is a prefix of another
one that could also match, so trying the alternatives independently is
exact. -/
def isHeaderLine (l : String) : Bool :=
  ["client", "contact", "address", "job", "date", "description", "notes",
   "supervisor", "telephone", "phone"].any
    (fun lab =>
      match matchCI lab.data l.data with
      | some (c :: _) => c = ':' || isJsWs c
      | _ => false)

/-- The item-number capture `(\d+[.,]?\d*)`: a maximal digit run, an
optional `.` or `,`, and a further maximal digit run.  Nothing downstream
of this capture in any item pattern can match `.` or `,`, so taking the
optional branch whenever it is available is exact. -/
def numCapture (l : List Char) : Option (List Char × List Char) :=
  let ds := l.takeWhile Char.isDigit
  match ds with
  | [] => none
  | _ :: _ =>
    match l.drop ds.length with
    | c :: rest =>
      if c = '.' || c = ',' then
        let ds2 := rest.takeWhile Char.isDigit
        some (ds ++ c :: ds2, rest.drop ds2.length)
      else some (ds, c :: rest)
    | [] => some (ds, [])

/-- The unit alternation `(kg|kgs|KG|KGs)\b` (with `/i`, the same as
`(kg|kgs)\b`): `kg` first; if the boundary fails because an `s` follows,
backtrack to `kgs`.  Returns how many characters were consumed. -/
def kgAlt (s : List Char) : Option Nat :=
  match matchCI "kg".data s with
  | none => none
  | some r =>
    match r with
    | [] => some 2
    | c :: r2 =>
      if !(isWordC c) then some 2
      else if c = 's' || c = 'S' then
        match r2 with
        | [] => some 3
        | d :: _ => if isWordC d then none else some 3
      else none

/-- A final greedy `(.+)$` preceded by a flexible separator run: `rest` is
what follows the maximal run.  If `rest` is non-empty the capture is
`rest`, which must contain no line terminator for `$` to be reachable; if
`rest` is empty the separator run backtracks by one character, which the
capture takes, provided it is not a line terminator. -/
def dotPlusToEnd (run rest : List Char) : Option (List Char) :=
  match rest with
  | _ :: _ => if rest.all (fun c => !(isLineTerm c)) then some rest else none
  | [] =>
    match run.getLast? with
    | some c => if isLineTerm c then none else some [c]
    | none => none

/-- Pattern 1: `/^(\d+[.,]?\d*)\s*(kg|kgs|KG|KGs)\b[\s\-:]*(.+)$/i`,
item `{description: m[3].trim(), quantity: `${m[1]} kg`}`. -/
def pat1 (l : List Char) : Option (String × String) :=
  match numCapture l with
  | none => none
  | some (num, r1) =>
    let r2 := r1.dropWhile isJsWs
    match kgAlt r2 with
    | none => none
    | some n =>
      let r3 := r2.drop n
      let run := r3.takeWhile isSepCD
      match dotPlusToEnd run (r3.drop run.length) with
      | some cap => some (jsTrim ⟨cap⟩, ⟨num ++ " kg".data⟩)
      | none => none

/-- The tail of pattern 2 after the lazy `^(.+?)`:
`\s+[\-:]*\s*(\d+[.,]?\d*)\s*(kg|kgs)\b$`; returns `m[2]`. -/
def pat2Tail (r : List Char) : Option (List Char) :=
  let ws := r.takeWhile isJsWs
  match ws with
  | [] => none
  | _ :: _ =>
    let r1 := (r.drop ws.length).dropWhile (fun c => c = '-' || c = ':')
    match numCapture (r1.dropWhile isJsWs) with
    | none => none
    | some (num, r4) =>
      let r5 := r4.dropWhile isJsWs
      match kgAlt r5 with
      | none => none
      | some n => if r5.drop n = [] then some num else none

/-- Pattern 2: `/^(.+?)\s+[\-:]*\s*(\d+[.,]?\d*)\s*(kg|kgs)\b$/i`,
item `{description: m[1].trim(), quantity: `${m[2]} kg`}`. -/
def pat2 (l : List Char) : Option (String × String) :=
  match lazyScan pat2Tail [] l with
  | some (g1, num) => some (jsTrim ⟨g1⟩, ⟨num ++ " kg".data⟩)
  | none => none

/-- Pattern 3: `/^(\d+)\s*[xX]\s*(.+)$/i`,
item `{description: m[2].trim(), quantity: m[1].trim()}`. -/
def pat3 (l : List Char) : Option (String × String) :=
  let ds := l.takeWhile Char.isDigit
  match ds with
  | [] => none
  | _ :: _ =>
    match (l.drop ds.length).dropWhile isJsWs with
    | c :: r2 =>
      if c = 'x' || c = 'X' then
        let run := r2.takeWhile isJsWs
        match dotPlusToEnd run (r2.drop run.length) with
        | some cap => some (jsTrim ⟨cap⟩, jsTrim ⟨ds⟩)
        | none => none
      else none
    | [] => none

/-- The tail of pattern 4 after `^(.+?)` and one `[:\-]` character:
`\s*(\d+[.,]?\d*)\s*(qty|QTY|pcs|each)?$`; returns `m[2]`. -/
def pat4Tail (r : List Char) : Option (List Char) :=
  match numCapture (r.dropWhile isJsWs) with
  | none => none
  | some (num, r2) =>
    match r2.dropWhile isJsWs with
    | [] => some num
    | r3 =>
      if matchCI "qty".data r3 = some [] || matchCI "pcs".data r3 = some [] ||
          matchCI "each".data r3 = some [] then
        some num
      else none

/-- Pattern 4: `/^(.+?)[:\-]\s*(\d+[.,]?\d*)\s*(qty|QTY|pcs|each)?$/i`,
item `{description: m[1].trim(), quantity: m[2].trim()}`. -/
def pat4 (l : List Char) : Option (String × String) :=
  match
    lazyScan
      (fun r =>
        match r with
        | c :: r2 => if c = ':' || c = '-' then pat4Tail r2 else none
        | [] => none)
      [] l
  with
  | some (g1, num) => some (jsTrim ⟨g1⟩, jsTrim ⟨num⟩)
  | none => none

/-- Pattern 5 at one position: `\bQty[:\s]*(\d+)\b\s*(.+)?` (unanchored in
the source, hence scanned).  Returns `(m[2] or empty, m[1])`. -/
def pat5At (prev : Option Char) (s : List Char) : Option (List Char × List Char) :=
  if bBefore prev then
    match matchCI "qty".data s with
    | none => none
    | some r =>
      let r1 := r.dropWhile isPhoneSep
      let ds := r1.takeWhile Char.isDigit
      match ds with
      | [] => none
      | _ :: _ =>
        let r2 := r1.drop ds.length
        if bAfter r2 then
          some (((r2.dropWhile isJsWs).takeWhile (fun c => !(isLineTerm c))), ds)
        else none
  else none

/-- Pattern 5: `/\bQty[:\s]*(\d+)\b\s*(.+)?/i`,
item `{description: (m[2] or '').trim() or 'Item', quantity: m[1].trim()}`. -/
def pat5 (l : List Char) : Option (String × String) :=
  match scanFirstB pat5At none l with
  | some (cap2, ds) => some (jsOr (jsTrim ⟨cap2⟩) "Item", jsTrim ⟨ds⟩)
  | none => none

/-- The tail of pattern 6 after the lazy `^(.+?)`: `\s+(\d+[.,]?\d*)$`;
returns `m[2]`. -/
def pat6Tail (r : List Char) : Option (List Char) :=
  let ws := r.takeWhile isJsWs
  match ws with
  | [] => none
  | _ :: _ =>
    match numCapture (r.drop ws.length) with
    | some (num, r2) => if r2 = [] then some num else none
    | none => none

/-- Pattern 6 (generic fallback): `/^(.+?)\s+(\d+[.,]?\d*)$/`,
item `{description: m[1].trim(), quantity: m[2].trim()}`. -/
def pat6 (l : List Char) : Option (String × String) :=
  match lazyScan pat6Tail [] l with
  | some (g1, num) => some (jsTrim ⟨g1⟩, jsTrim ⟨num⟩)
  | none => none

/-- One loop iteration of `parseItemsFromLines`: skip header-looking
lines, then try the six patterns in order, first match wins; the produced
pair is `(description, quantity)`. -/
def itemOfLine (l : String) : Option (String × String) :=
  if isHeaderLine l then none
  else
    match pat1 l.data with
    | some dq => some dq
    | none =>
      match pat2 l.data with
      | some dq => some dq
      | none =>
        match pat3 l.data with
        | some dq => some dq
        | none =>
          match pat4 l.data with
          | some dq => some dq
          | none =>
            match pat5 l.data with
            | some dq => some dq
            | none => pat6 l.data

/-- `TimesheetItem` of `src/types.ts` (the optional `unit` is never set by
the text parser). -/
structure TimesheetItem where
  id : String
  description : String
  quantity : String
deriving Repr, DecidableEq

/-- Attach the `Math.random()`-generated ids: the `j`-th item pushed gets
the `j`-th value of the id supply `g`. -/
def attachIds (g : Nat → String) : List (String × String) → List TimesheetItem
  | [] => []
  | (d, q) :: rest => ⟨g 0, d, q⟩ :: attachIds (fun n => g (n + 1)) rest

/-- `parseItemsFromLines` from the source, with the id supply explicit. -/
def parseItemsFromLines (g : Nat → String) (lines : List String) : List TimesheetItem :=
  attachIds g (lines.filterMap itemOfLine)

/-! ## `parseTimesheetFromText` -/

/-- `TimesheetData` of `src/types.ts`, fields in the order the parser
assembles them. -/
structure TimesheetData where
  description : String
  client : String
  contactName : String
  contactNumber : String
  address : String
  jobId : String
  items : List TimesheetItem
  date : String
  supervisorName : String
  clientRepName : String
  startTime : String
  finishTime : String
  travelTime : String
  totalTime : String
  notes : String
deriving Repr, DecidableEq

/-- The line pipeline of the source:
`text.replace(/\r/g, '\n').split(/\n+/).map(l => l.trim()).filter(Boolean)`.
Splitting on every single `'\n'` instead of on runs produces the same list
because the extra segments between consecutive line feeds are empty and
are removed by the `filter`. -/
def linesOf (text : String) : List String :=
  ((splitOnNl (text.data.map (fun c => if c = '\r' then '\n' else c))).map
      (fun cl => jsTrim ⟨cl⟩)).filter (fun s => !(s = ""))

/-- `/notes|variations/i.test(l)` of the notes-marker search. -/
def hasNotesMarker (l : String) : Bool :=
  containsCI "notes".data l.data || containsCI "variations".data l.data

/-- `parseTimesheetFromText` from the source.  `g` is the `Math.random()`
id supply and `now` the ambient `new Date().toLocaleDateString('pt-BR')`
string; everything else is the translated source line by line.

On line 87 of the source the address fallback is
`lines.find(l => /\d+\s+\w+\s+(Road|...)/i)`: the arrow function returns
the regular-expression object itself (it never calls `.test`), and an
object is always truthy, so `find` returns the first line whenever there
is one.  The embedding keeps that behavior with the constantly-true
predicate. -/
def parseTimesheetFromText (g : Nat → String) (text : String) (now : String) :
    TimesheetData :=
  let lines := linesOf text
  let client := jsOr (fmClient text)
    (jsOr (fmClientName text) (jsOr ((lines.head?).getD "") ""))
  let jobId := jsOr (fmJobNo text) (jsOr (fmJob text) "")
  let contactName := jsOr (fmContactName text) (jsOr (fmContact text) "")
  let contactNumber := jsOr (parsePhone text) ""
  let address := jsOr (fmAddress text)
    (jsOr ((lines.find? (fun _ => true)).getD "") "")
  let description := jsOr (fmDescription text)
    (jsOr (joinSp ((lines.drop 1).take 2)) "")
  let date := jsOr (fmDate text) (jsOr (parseDate text) now)
  let notes :=
    match findIdxO hasNotesMarker lines with
    | some i => joinSp ((lines.drop (i + 1)).take 5)
    | none => ""
  let items := parseItemsFromLines g lines
  { description := jsOr description (jsTake (joinSp (lines.take 2)) 240)
    client := jsOr client ""
    contactName := jsOr contactName ""
    contactNumber := jsOr contactNumber ""
    address := jsOr address ""
    jobId := jsOr jobId ""
    items := items
    date := date
    supervisorName := ""
    clientRepName := ""
    startTime := ""
    finishTime := ""
    travelTime := ""
    totalTime := ""
    notes := jsOr notes (jsTake text 300) }

/-! ## Helper lemmas -/

/-- Projecting away the ids of `attachIds` returns the underlying
description/quantity list, whatever the id supply. -/
theorem attachIds_map_dq (g : Nat → String) (core : List (String × String)) :
    (attachIds g core).map (fun it => (it.description, it.quantity)) = core := by
  induction core generalizing g with
  | nil => rfl
  | cons dq rest ih =>
    obtain ⟨d, q⟩ := dq
    simp [attachIds, ih]

/-- `attachIds` preserves the length, whatever the id supply. -/
theorem attachIds_length (g : Nat → String) (core : List (String × String)) :
    (attachIds g core).length = core.length := by
  induction core generalizing g with
  | nil => rfl
  | cons dq rest ih =>
    obtain ⟨d, q⟩ := dq
    simp [attachIds, ih]

/-- Membership transfer into `attachIds`. -/
theorem attachIds_mem_of (g : Nat → String) (core : List (String × String))
    (dq : String × String) (h : dq ∈ core) :
    ∃ it ∈ attachIds g core, it.description = dq.1 ∧ it.quantity = dq.2 := by
  induction core generalizing g with
  | nil => cases h
  | cons a t ih =>
    obtain ⟨d, q⟩ := a
    rcases List.mem_cons.mp h with h | h
    · exact ⟨⟨g 0, d, q⟩, by simp [attachIds], by rw [h], by rw [h]⟩
    · obtain ⟨it, hmem, hd, hq⟩ := ih (fun n => g (n + 1)) h
      exact ⟨it, by simp [attachIds, hmem], hd, hq⟩

/-- Membership transfer out of `attachIds`. -/
theorem attachIds_mem_rev (g : Nat → String) (core : List (String × String))
    (it : TimesheetItem) (h : it ∈ attachIds g core) :
    ∃ dq ∈ core, it.description = dq.1 ∧ it.quantity = dq.2 := by
  induction core generalizing g with
  | nil => cases h
  | cons a t ih =>
    obtain ⟨d, q⟩ := a
    rcases List.mem_cons.mp h with h | h
    · exact ⟨(d, q), by simp, by rw [h], by rw [h]⟩
    · obtain ⟨dq, hmem, hd, hq⟩ := ih (fun n => g (n + 1)) h
      exact ⟨dq, by simp [hmem], hd, hq⟩

/-- A line passing the header filter produces no item. -/
theorem header_no_item (l : String) (h : isHeaderLine l = true) : itemOfLine l = none := by
  simp [itemOfLine, h]

/-- The empty string is falsy on the left of `||`. -/
theorem jsOr_empty_left (b : String) : jsOr "" b = b := by
  unfold jsOr
  simp

/-- `a || ''` is `a`. -/
theorem jsOr_empty_right (a : String) : jsOr a "" = a := by
  unfold jsOr
  by_cases h : a = ""
  · rw [if_pos h, h]
  · rw [if_neg h]

/-! ## Claims -/

/-- C1: for every input string (and every id supply and ambient date), the
engine terminates with a record in which every field of the record schema
is present as a string, and `items` is a (possibly empty) list.  In the
shallow embedding the extraction engine is a total function into
`TimesheetData`, whose fields are all `String` apart from the `items`
list, so totality and full population are witnessed by exhibiting the
record. -/
theorem claim_C1 (g : Nat → String) (text now : String) :
    ∃ (description client contactName contactNumber address jobId : String)
      (items : List TimesheetItem)
      (date supervisorName clientRepName startTime finishTime travelTime
        totalTime notes : String),
      parseTimesheetFromText g text now =
        { description := description, client := client, contactName := contactName,
          contactNumber := contactNumber, address := address, jobId := jobId,
          items := items, date := date, supervisorName := supervisorName,
          clientRepName := clientRepName, startTime := startTime,
          finishTime := finishTime, travelTime := travelTime,
          totalTime := totalTime, notes := notes } :=
  ⟨_, _, _, _, _, _, _, _, _, _, _, _, _, _, _, rfl⟩

/-- C9: two runs of the engine on the same text and ambient date, with
arbitrary (possibly different) id supplies, agree on every field except
the ids inside `items`: all scalar fields are equal, and the items agree
in number and componentwise on description and quantity. -/
theorem claim_C9 (g₁ g₂ : Nat → String) (text now : String) :
    (parseTimesheetFromText g₁ text now).description
        = (parseTimesheetFromText g₂ text now).description ∧
    (parseTimesheetFromText g₁ text now).client
        = (parseTimesheetFromText g₂ text now).client ∧
    (parseTimesheetFromText g₁ text now).contactName
        = (parseTimesheetFromText g₂ text now).contactName ∧
    (parseTimesheetFromText g₁ text now).contactNumber
        = (parseTimesheetFromText g₂ text now).contactNumber ∧
    (parseTimesheetFromText g₁ text now).address
        = (parseTimesheetFromText g₂ text now).address ∧
    (parseTimesheetFromText g₁ text now).jobId
        = (parseTimesheetFromText g₂ text now).jobId ∧
    (parseTimesheetFromText g₁ text now).date
        = (parseTimesheetFromText g₂ text now).date ∧
    (parseTimesheetFromText g₁ text now).supervisorName
        = (parseTimesheetFromText g₂ text now).supervisorName ∧
    (parseTimesheetFromText g₁ text now).clientRepName
        = (parseTimesheetFromText g₂ text now).clientRepName ∧
    (parseTimesheetFromText g₁ text now).startTime
        = (parseTimesheetFromText g₂ text now).startTime ∧
    (parseTimesheetFromText g₁ text now).finishTime
        = (parseTimesheetFromText g₂ text now).finishTime ∧
    (parseTimesheetFromText g₁ text now).travelTime
        = (parseTimesheetFromText g₂ text now).travelTime ∧
    (parseTimesheetFromText g₁ text now).totalTime
        = (parseTimesheetFromText g₂ text now).totalTime ∧
    (parseTimesheetFromText g₁ text now).notes
        = (parseTimesheetFromText g₂ text now).notes ∧
    (parseTimesheetFromText g₁ text now).items.length
        = (parseTimesheetFromText g₂ text now).items.length ∧
    (parseTimesheetFromText g₁ text now).items.map (fun it => (it.description, it.quantity))
        = (parseTimesheetFromText g₂ text now).items.map
            (fun it => (it.description, it.quantity)) := by
  have hitems : ∀ g : Nat → String, (parseTimesheetFromText g text now).items
      = attachIds g ((linesOf text).filterMap itemOfLine) := fun _ => rfl
  refine ⟨rfl, rfl, rfl, rfl, rfl, rfl, rfl, rfl, rfl, rfl, rfl, rfl, rfl, rfl, ?_, ?_⟩
  · rw [hitems g₁, hitems g₂, attachIds_length, attachIds_length]
  · rw [hitems g₁, hitems g₂, attachIds_map_dq, attachIds_map_dq]

/-- C7: lines that the header filter recognizes (a header label word at
the start of the line followed by a colon-or-whitespace separator) never
contribute an item: dropping them from the input changes nothing, and in
particular the line "Phone: 1300 237 287" produces no item even though it
would match the trailing-number fallback pattern. -/
theorem claim_C7 :
    (∀ (g : Nat → String) (ls : List String),
      parseItemsFromLines g ls
        = parseItemsFromLines g (ls.filter (fun l => !(isHeaderLine l)))) ∧
    itemOfLine "Phone: 1300 237 287" = none := by
  refine ⟨?_, by decide⟩
  intro g ls
  unfold parseItemsFromLines
  congr 1
  induction ls with
  | nil => rfl
  | cons a t ih =>
    by_cases h : isHeaderLine a
    · simp [List.filterMap_cons, List.filter_cons, h, header_no_item a h, ih]
    · simp [List.filterMap_cons, List.filter_cons, h, ih]

/-- C8: the line "10kg Asbestos waste" is parsed by the mass-prefixed
pattern into exactly one item with description "Asbestos waste" and
quantity "10 kg" (so no later pattern, in particular the generic
trailing-number fallback, is consulted), and every line list containing
that line yields such an item. -/
theorem claim_C8 :
    itemOfLine "10kg Asbestos waste" = some ("Asbestos waste", "10 kg") ∧
    ∀ (g : Nat → String) (ls : List String), "10kg Asbestos waste" ∈ ls →
      ∃ it ∈ parseItemsFromLines g ls,
        it.description = "Asbestos waste" ∧ it.quantity = "10 kg" := by
  refine ⟨by decide, ?_⟩
  intro g ls h
  have hcore : (("Asbestos waste", "10 kg") : String × String) ∈ ls.filterMap itemOfLine :=
    List.mem_filterMap.mpr ⟨_, h, by decide⟩
  exact attachIds_mem_of g _ _ hcore

/-- Witness for C8 at the concrete one-line input. -/
theorem claim_C8_witness :
    ("10kg Asbestos waste" ∈ (["10kg Asbestos waste"] : List String)) ∧
    ∃ it ∈ parseItemsFromLines (fun _ => "w") ["10kg Asbestos waste"],
      it.description = "Asbestos waste" ∧ it.quantity = "10 kg" :=
  ⟨by decide, claim_C8.2 (fun _ => "w") _ (by decide)⟩

/-- The street-vocabulary alternation
`(Road|Rd|St|Street|Ave|Avenue|Drive|Dr|Lane|Ln|Mitchell|Brookvale)` of the
regex written (but, through the missing `.test` call, never applied) in
the address fallback on line 87 of the source. -/
def streetAlts : List (List Char) :=
  ["road".data, "rd".data, "st".data, "street".data, "ave".data, "avenue".data,
   "drive".data, "dr".data, "lane".data, "ln".data, "mitchell".data, "brookvale".data]

/-- `/\d+\s+\w+\s+(Road|...)/i` at one position: a digit run, whitespace,
a word run, whitespace, then a street-vocabulary token. -/
def addrVocabAt (s : List Char) : Option Unit :=
  let ds := s.takeWhile Char.isDigit
  match ds with
  | [] => none
  | _ :: _ =>
    let r1 := s.drop ds.length
    let ws1 := r1.takeWhile isJsWs
    match ws1 with
    | [] => none
    | _ :: _ =>
      let r2 := r1.drop ws1.length
      let w := r2.takeWhile isWordC
      match w with
      | [] => none
      | _ :: _ =>
        let r3 := r2.drop w.length
        let ws2 := r3.takeWhile isJsWs
        match ws2 with
        | [] => none
        | _ :: _ =>
          match altCI streetAlts (r3.drop ws2.length) with
          | some _ => some ()
          | none => none

/-- `.test` of the line-87 regex: does any position of the line start a
number-then-word-then-street-token match? -/
def addressLineTest (l : String) : Bool :=
  (scanFirst addrVocabAt l.data).isSome

/-- C2: the address fallback of the source is written as
`lines.find(l => /\d+\s+\w+\s+(Road|...)/i)`, whose callback returns the
regular-expression object itself — always truthy — instead of testing it,
so the fallback returns the first line unconditionally.  On the input
"hello\n5 Main Road" the engine therefore returns address "hello",
although the first (and only) line matching the street-vocabulary regex is
"5 Main Road", as the claim (and the evident intent of the dead regex)
requires. -/
theorem claim_C2_code_eval :
    (parseTimesheetFromText (fun _ => "") "hello\n5 Main Road" "").address = "hello" ∧
    (linesOf "hello\n5 Main Road").find? addressLineTest = some "5 Main Road" ∧
    addressLineTest "hello" = false := by decide

/-- C3 counterexample: on the input "Phone: 0412-345-6789" the labeled
phone match succeeds and only whitespace is stripped, so the dashes of the
matched separator set remain in `contactNumber`, which therefore does not
consist of digits and an optional leading plus. -/
theorem claim_C3_counterexample :
    (parseTimesheetFromText (fun _ => "") "Phone: 0412-345-6789" "").contactNumber
        = "0412-345-6789" ∧
    ¬ (∀ c ∈ ("0412-345-6789" : String).data, c.isDigit = true ∨ c = '+') := by decide

/-- Characters surviving `stripWs` are not whitespace. -/
theorem mem_stripWs (c : Char) (s : String) (h : c ∈ (stripWs s).data) :
    isJsWs c = false := by
  unfold stripWs at h
  have := (List.mem_filter.mp h).2
  simpa using this

/-- C3 (amended): `parsePhone` strips exactly the whitespace of the match
(`replace(/\s+/g, '')`); dashes, dots and parentheses are retained.  Hence
the `contactNumber` field never contains a whitespace character. -/
theorem claim_C3_amended (g : Nat → String) (text now : String) (c : Char)
    (h : c ∈ (parseTimesheetFromText g text now).contactNumber.data) :
    isJsWs c = false := by
  have hproj : (parseTimesheetFromText g text now).contactNumber
      = jsOr (jsOr (parsePhone text) "") "" := rfl
  rw [hproj, jsOr_empty_right, jsOr_empty_right] at h
  unfold parsePhone at h
  rcases h1 : scanFirst phoneLabelAt text.data with _ | g1
  · rw [h1] at h
    rcases h2 : scanFirst phoneGenericAt text.data with _ | g2
    · rw [h2] at h
      simp at h
    · rw [h2] at h
      exact mem_stripWs c ⟨g2⟩ h
  · rw [h1] at h
    exact mem_stripWs c ⟨g1⟩ h

/-- Witness for C3 (amended) at the spec's own phone example. -/
theorem claim_C3_amended_witness :
    ('0' ∈ (parseTimesheetFromText (fun _ => "") "Mobile: 0412 345 678" "").contactNumber.data) ∧
    isJsWs '0' = false :=
  ⟨by decide, claim_C3_amended (fun _ => "") "Mobile: 0412 345 678" "" '0' (by decide)⟩

/-- C4 counterexample: on "A\nB\nC" no labeled description match succeeds
and the engine returns "B C" — the second and third content lines — while
the concatenation of the first two content lines (truncated to 240
characters) is "A B". -/
theorem claim_C4_counterexample :
    fmDescription "A\nB\nC" = "" ∧
    (parseTimesheetFromText (fun _ => "") "A\nB\nC" "").description = "B C" ∧
    ¬ (("B C" : String) = jsTake (joinSp ((linesOf "A\nB\nC").take 2)) 240) := by decide

/-- C4 (amended): when no labeled description match succeeds, the
description is the space-join of the second and third content lines, not
truncated; only when that join is empty (fewer than two content lines)
does the engine fall back to the first two lines truncated to 240
characters. -/
theorem claim_C4_amended (g : Nat → String) (text now : String)
    (h : fmDescription text = "") :
    (parseTimesheetFromText g text now).description =
      jsOr (joinSp (((linesOf text).drop 1).take 2))
        (jsTake (joinSp ((linesOf text).take 2)) 240) := by
  have hproj : (parseTimesheetFromText g text now).description =
      jsOr (jsOr (fmDescription text) (jsOr (joinSp (((linesOf text).drop 1).take 2)) ""))
        (jsTake (joinSp ((linesOf text).take 2)) 240) := rfl
  rw [hproj, h, jsOr_empty_left, jsOr_empty_right]

/-- Witness for C4 (amended) at the three-line input. -/
theorem claim_C4_amended_witness :
    fmDescription "A\nB\nC" = "" ∧
    (parseTimesheetFromText (fun _ => "") "A\nB\nC" "").description =
      jsOr (joinSp (((linesOf "A\nB\nC").drop 1).take 2))
        (jsTake (joinSp ((linesOf "A\nB\nC").take 2)) 240) :=
  ⟨by decide, claim_C4_amended (fun _ => "") "A\nB\nC" "" (by decide)⟩

/-- C5 counterexample: on the one-line input "see notes" a marker line
exists (index 0) and the claim demands the notes equal the join of the
following lines, which is empty; the engine instead falls back to the
300-character prefix of the input and returns "see notes". -/
theorem claim_C5_counterexample :
    findIdxO hasNotesMarker (linesOf "see notes") = some 0 ∧
    joinSp (((linesOf "see notes").drop 1).take 5) = "" ∧
    (parseTimesheetFromText (fun _ => "") "see notes" "").notes = "see notes" ∧
    ¬ (("see notes" : String) = "") := by decide

/-- C5 (amended): when a marker line exists and is followed by at least
one content line, the notes are the join of up to the next five content
lines; the fallback — a prefix of at most 300 characters of the raw input
text (not of the normalized text) — is taken exactly when no marker line
exists or the marker line is followed by no content line. -/
theorem claim_C5_amended (g : Nat → String) (text now : String) :
    (parseTimesheetFromText g text now).notes =
      (match findIdxO hasNotesMarker (linesOf text) with
       | some i => jsOr (joinSp (((linesOf text).drop (i + 1)).take 5)) (jsTake text 300)
       | none => jsTake text 300) := by
  have hproj : (parseTimesheetFromText g text now).notes =
      jsOr (match findIdxO hasNotesMarker (linesOf text) with
            | some i => joinSp (((linesOf text).drop (i + 1)).take 5)
            | none => "") (jsTake text 300) := rfl
  rw [hproj]
  rcases findIdxO hasNotesMarker (linesOf text) with _ | i
  · simp [jsOr]
  · rfl

/-- Leftmost-first search skips a prefix at whose positions the matcher
fails. -/
theorem scanFirst_append_none (f : List Char → Option α) (l1 l2 : List Char)
    (h : ∀ p, p < l1.length → f (l1.drop p ++ l2) = none) :
    scanFirst f (l1 ++ l2) = scanFirst f l2 := by
  induction l1 with
  | nil => rfl
  | cons a t ih =>
    have h0 : f (a :: (t ++ l2)) = none := by
      have h0' := h 0 (by simp)
      rw [List.drop_zero, List.cons_append] at h0'
      exact h0'
    have step : scanFirst f ((a :: t) ++ l2) = scanFirst f (t ++ l2) := by
      rw [List.cons_append]
      simp only [scanFirst, h0]
    rw [step]
    exact ih (fun p hp => by
      have := h (p + 1) (by simpa using Nat.succ_lt_succ hp)
      simpa using this)

/-- C6 counterexample: the input "ReClient: Bob\nClient: Acme Pty Ltd"
contains the line "Client: Acme Pty Ltd", yet the client field is "Bob":
`firstMatch` takes the leftmost match of `/Client[:\-\s]+(.+)/i` in the
whole text, and the earlier line already contains one (inside
"ReClient: Bob"). -/
theorem claim_C6_counterexample :
    "Client: Acme Pty Ltd" ∈ linesOf "ReClient: Bob\nClient: Acme Pty Ltd" ∧
    (parseTimesheetFromText (fun _ => "") "ReClient: Bob\nClient: Acme Pty Ltd" "").client
        = "Bob" ∧
    ¬ (("Bob" : String) = "Acme Pty Ltd") := by decide

/-- C6 (amended): if the text contains the line "Client: Acme Pty Ltd"
and no earlier position of the text matches the client label (in
particular the letters "client" do not occur, in any case, before that
line), then the client field is "Acme Pty Ltd" regardless of everything
after that line. -/
theorem claim_C6_amended (g : Nat → String) (now : String) (pre post : String)
    (h1 : ∀ p, p < pre.data.length →
      matchCI "client".data
        (pre.data.drop p ++ ("Client: Acme Pty Ltd" ++ post).data) = none)
    (h2 : post = "" ∨ ∃ t, post.data = '\n' :: t) :
    (parseTimesheetFromText g (pre ++ "Client: Acme Pty Ltd" ++ post) now).client
        = "Acme Pty Ltd" := by
  have hproj : ∀ text : String, (parseTimesheetFromText g text now).client =
      jsOr (jsOr (fmClient text)
        (jsOr (fmClientName text) (jsOr (((linesOf text).head?).getD "") ""))) "" :=
    fun _ => rfl
  rw [hproj]
  suffices hfm : fmClient (pre ++ "Client: Acme Pty Ltd" ++ post) = "Acme Pty Ltd" by
    rw [hfm]
    rfl
  unfold fmClient firstMatch
  have hdata : (pre ++ "Client: Acme Pty Ltd" ++ post).data
      = pre.data ++ ("Client: Acme Pty Ltd" ++ post).data := by
    rw [String.append_assoc]
    exact String.data_append pre ("Client: Acme Pty Ltd" ++ post)
  have hskip : ∀ p, p < pre.data.length →
      labelCapAt "client".data
        (pre.data.drop p ++ ("Client: Acme Pty Ltd" ++ post).data) = none := by
    intro p hp
    unfold labelCapAt
    rw [h1 p hp]
  rw [hdata, scanFirst_append_none _ _ _ hskip]
  rcases h2 with h2 | ⟨t, h2⟩
  · subst h2
    decide
  · have hpost : ("Client: Acme Pty Ltd" ++ post).data
        = "Client: Acme Pty Ltd".data ++ '\n' :: t := by
      rw [String.data_append, h2]
    rw [hpost]
    rfl

/-- Witness for C6 (amended): a concrete prefix not containing the
letters "client" and a concrete following section. -/
theorem claim_C6_amended_witness :
    (∀ p, p < ("Job 7\n" : String).data.length →
      matchCI "client".data
        (("Job 7\n" : String).data.drop p
          ++ ("Client: Acme Pty Ltd" ++ "\nNotes").data) = none) ∧
    (parseTimesheetFromText (fun _ => "")
        ("Job 7\n" ++ "Client: Acme Pty Ltd" ++ "\nNotes") "").client = "Acme Pty Ltd" :=
  ⟨by decide,
   claim_C6_amended (fun _ => "") "" "Job 7\n" "\nNotes" (by decide)
     (Or.inr ⟨"Notes".data, rfl⟩)⟩

/-! ## The quantity invariant (C10) -/

/-- The characters an item-number capture `(\d+[.,]?\d*)` can contain. -/
def isNumLike (c : Char) : Bool := c.isDigit || c = '.' || c = ','

/-- The quantity starts with a decimal digit (in particular it is
non-empty). -/
def quantityStartsDigit (q : String) : Prop :=
  ∃ c cs, q.data = c :: cs ∧ c.isDigit = true

/-- Digits, dots and commas are not whitespace. -/
theorem isNumLike_not_ws (x : Char) (h : isNumLike x = true) : isJsWs x = false := by
  simp only [isNumLike, Bool.or_eq_true, decide_eq_true_eq] at h
  rcases h with (hd | rfl) | rfl
  · by_contra h2
    rw [Bool.not_eq_false] at h2
    simp only [isJsWs, Bool.or_eq_true, decide_eq_true_eq] at h2
    rcases h2 with ((((rfl | rfl) | rfl) | rfl) | rfl) | rfl <;> exact absurd hd (by decide)
  · decide
  · decide

/-- Trimming a string with no whitespace is the identity. -/
theorem trimChars_of_not_ws (l : List Char) (h : ∀ x ∈ l, isJsWs x = false) :
    trimChars l = l := by
  have h1 : ∀ m : List Char, (∀ x ∈ m, isJsWs x = false) → m.dropWhile isJsWs = m := by
    intro m hm
    cases m with
    | nil => rfl
    | cons a t =>
      exact List.dropWhile_cons_of_neg (by simp [hm a (List.mem_cons_self a t)])
  unfold trimChars
  rw [h1 l h, h1 l.reverse (fun x hx => h x (List.mem_reverse.mp hx)), List.reverse_reverse]

/-- What `numCapture` captures starts with a digit and consists of digits,
dots and commas. -/
theorem numCapture_spec (l num r : List Char) (h : numCapture l = some (num, r)) :
    (∃ c cs, num = c :: cs ∧ c.isDigit = true) ∧ ∀ x ∈ num, isNumLike x = true := by
  simp only [numCapture] at h
  split at h
  · exact absurd h (by simp)
  · rename_i a1 dg ds hds
    have hd : dg.isDigit = true :=
      List.mem_takeWhile_imp (by rw [hds]; exact List.mem_cons_self dg ds)
    have hall : ∀ x ∈ l.takeWhile Char.isDigit, isNumLike x = true := by
      intro x hx
      have := List.mem_takeWhile_imp hx
      simp [isNumLike, this]
    split at h
    · split at h
      · rename_i a2 c rest hdrop hpunct
        simp only [Option.some.injEq, Prod.mk.injEq] at h
        obtain ⟨hnum, hr⟩ := h
        subst hnum
        constructor
        · exact ⟨dg, ds ++ c :: rest.takeWhile Char.isDigit, by rw [hds, List.cons_append], hd⟩
        · intro x hx
          rcases List.mem_append.mp hx with hx | hx
          · exact hall x hx
          · rcases List.mem_cons.mp hx with rfl | hx
            · simp only [Bool.or_eq_true, decide_eq_true_eq] at hpunct
              rcases hpunct with rfl | rfl <;> decide
            · have := List.mem_takeWhile_imp hx
              simp [isNumLike, this]
      · rename_i a2 c rest hdrop hpunct
        simp only [Option.some.injEq, Prod.mk.injEq] at h
        obtain ⟨hnum, hr⟩ := h
        subst hnum
        exact ⟨⟨dg, ds, hds, hd⟩, hall⟩
    · rename_i a2 hdrop
      simp only [Option.some.injEq, Prod.mk.injEq] at h
      obtain ⟨hnum, hr⟩ := h
      subst hnum
      exact ⟨⟨dg, ds, hds, hd⟩, hall⟩

/-- A digit-run capture starts with a digit and is digit-only. -/
theorem digitsTW_spec (m : List Char) (c : Char) (cs : List Char)
    (h : m.takeWhile Char.isDigit = c :: cs) :
    (∃ a as, m.takeWhile Char.isDigit = a :: as ∧ a.isDigit = true) ∧
      ∀ x ∈ m.takeWhile Char.isDigit, isNumLike x = true := by
  refine ⟨⟨c, cs, h, List.mem_takeWhile_imp (by rw [h]; exact List.mem_cons_self c cs)⟩, ?_⟩
  intro x hx
  have := List.mem_takeWhile_imp hx
  simp [isNumLike, this]

/-- Appending the literal " kg" to a digit-headed capture keeps the digit
head. -/
theorem qsd_of_kg (num : List Char) (h : ∃ c cs, num = c :: cs ∧ c.isDigit = true) :
    quantityStartsDigit ⟨num ++ " kg".data⟩ := by
  obtain ⟨c, cs, rfl, hd⟩ := h
  exact ⟨c, cs ++ " kg".data, rfl, hd⟩

/-- Trimming a digit-headed, whitespace-free capture keeps the digit
head. -/
theorem qsd_of_trim (num : List Char)
    (h : (∃ c cs, num = c :: cs ∧ c.isDigit = true) ∧ ∀ x ∈ num, isNumLike x = true) :
    quantityStartsDigit (jsTrim ⟨num⟩) := by
  obtain ⟨⟨c, cs, rfl, hd⟩, hall⟩ := h
  have : jsTrim ⟨c :: cs⟩ = ⟨c :: cs⟩ := by
    unfold jsTrim
    rw [trimChars_of_not_ws _ (fun x hx => isNumLike_not_ws x (hall x hx))]
  rw [this]
  exact ⟨c, cs, rfl, hd⟩

/-- Whatever a lazy scan returned came from the tail matcher. -/
theorem lazyScan_some {α : Type} (f : List Char → Option α) (acc l : List Char)
    (g1 : List Char) (a : α) (h : lazyScan f acc l = some (g1, a)) :
    ∃ r, f r = some a := by
  induction l generalizing acc with
  | nil => simp [lazyScan] at h
  | cons c r ih =>
    unfold lazyScan at h
    by_cases hlt : isLineTerm c
    · rw [if_pos hlt] at h
      simp at h
    · rw [if_neg hlt] at h
      rcases hf : f r with _ | a2
      · rw [hf] at h
        exact ih _ h
      · rw [hf] at h
        simp only [Option.some.injEq, Prod.mk.injEq] at h
        exact ⟨r, by rw [hf, h.2]⟩

/-- Whatever a boundary-tracking scan returned came from the matcher at
some position. -/
theorem scanFirstB_some {α : Type} (f : Option Char → List Char → Option α)
    (prev : Option Char) (l : List Char) (a : α)
    (h : scanFirstB f prev l = some a) : ∃ p s, f p s = some a := by
  induction l generalizing prev with
  | nil => exact ⟨prev, [], h⟩
  | cons c cs ih =>
    unfold scanFirstB at h
    rcases hf : f prev (c :: cs) with _ | a2
    · rw [hf] at h
      exact ih _ h
    · rw [hf] at h
      simp only [Option.some.injEq] at h
      exact ⟨prev, c :: cs, by rw [hf, h]⟩

/-- Pattern 1 quantities start with a digit. -/
theorem pat1_q (l : List Char) (d q : String) (h : pat1 l = some (d, q)) :
    quantityStartsDigit q := by
  simp only [pat1] at h
  split at h
  · exact absurd h (by simp)
  · split at h
    · exact absurd h (by simp)
    · split at h
      · rename_i a1 num r1 hnc a2 n hkg a3 cap hdp
        simp only [Option.some.injEq, Prod.mk.injEq] at h
        obtain ⟨hd, hq⟩ := h
        subst hq
        exact qsd_of_kg num (numCapture_spec l num r1 hnc).1
      · exact absurd h (by simp)

/-- The pattern-2 tail capture is a `numCapture` capture. -/
theorem pat2Tail_spec (r num : List Char) (h : pat2Tail r = some num) :
    (∃ c cs, num = c :: cs ∧ c.isDigit = true) ∧ ∀ x ∈ num, isNumLike x = true := by
  simp only [pat2Tail] at h
  split at h
  · exact absurd h (by simp)
  · split at h
    · exact absurd h (by simp)
    · split at h
      · exact absurd h (by simp)
      · split at h
        · rename_i a1 a2 a3 a4 a5 num0 r2 hnc a6 n hkg hnil
          simp only [Option.some.injEq] at h
          subst h
          exact numCapture_spec _ _ _ hnc
        · exact absurd h (by simp)

/-- Pattern 2 quantities start with a digit. -/
theorem pat2_q (l : List Char) (d q : String) (h : pat2 l = some (d, q)) :
    quantityStartsDigit q := by
  simp only [pat2] at h
  split at h
  · rename_i a1 g1 num0 hls
    simp only [Option.some.injEq, Prod.mk.injEq] at h
    obtain ⟨hd, hq⟩ := h
    subst hq
    obtain ⟨r, hf⟩ := lazyScan_some pat2Tail [] l g1 num0 hls
    exact qsd_of_kg num0 (pat2Tail_spec r num0 hf).1
  · exact absurd h (by simp)

/-- Pattern 3 quantities start with a digit. -/
theorem pat3_q (l : List Char) (d q : String) (h : pat3 l = some (d, q)) :
    quantityStartsDigit q := by
  simp only [pat3] at h
  split at h
  · exact absurd h (by simp)
  · split at h
    · split at h
      · split at h
        · rename_i a1 dg ds hds a2 c r2 hdw hx a3 cap hdp
          simp only [Option.some.injEq, Prod.mk.injEq] at h
          obtain ⟨hd, hq⟩ := h
          subst hq
          exact qsd_of_trim _ (digitsTW_spec l dg ds hds)
        · exact absurd h (by simp)
      · exact absurd h (by simp)
    · exact absurd h (by simp)

/-- The pattern-4 tail capture is a `numCapture` capture. -/
theorem pat4Tail_spec (r num : List Char) (h : pat4Tail r = some num) :
    (∃ c cs, num = c :: cs ∧ c.isDigit = true) ∧ ∀ x ∈ num, isNumLike x = true := by
  simp only [pat4Tail] at h
  split at h
  · exact absurd h (by simp)
  · split at h
    · rename_i a1 num0 r2 hnc a2 hdw
      simp only [Option.some.injEq] at h
      subst h
      exact numCapture_spec _ _ _ hnc
    · split at h
      · rename_i a1 num0 r2 hnc a2 a3 halt
        simp only [Option.some.injEq] at h
        subst h
        exact numCapture_spec _ _ _ hnc
      · exact absurd h (by simp)

/-- Pattern 4 quantities start with a digit. -/
theorem pat4_q (l : List Char) (d q : String) (h : pat4 l = some (d, q)) :
    quantityStartsDigit q := by
  simp only [pat4] at h
  split at h
  · rename_i a1 g1 num0 hls
    simp only [Option.some.injEq, Prod.mk.injEq] at h
    obtain ⟨hd, hq⟩ := h
    subst hq
    obtain ⟨r, hf⟩ := lazyScan_some _ [] l g1 num0 hls
    have hnum : (∃ c cs, num0 = c :: cs ∧ c.isDigit = true) ∧
        ∀ x ∈ num0, isNumLike x = true := by
      rcases r with _ | ⟨c, r2⟩
      · exact absurd hf (by simp)
      · have hf2 : (if (decide (c = ':') || decide (c = '-')) = true
            then pat4Tail r2 else none) = some num0 := hf
        by_cases hc : (decide (c = ':') || decide (c = '-')) = true
        · rw [if_pos hc] at hf2
          exact pat4Tail_spec r2 num0 hf2
        · rw [if_neg hc] at hf2
          exact absurd hf2 (by simp)
    exact qsd_of_trim num0 hnum
  · exact absurd h (by simp)

/-- The pattern-5 number capture is a digit run. -/
theorem pat5At_spec (p : Option Char) (s c2 ds : List Char)
    (h : pat5At p s = some (c2, ds)) :
    (∃ c cs, ds = c :: cs ∧ c.isDigit = true) ∧ ∀ x ∈ ds, isNumLike x = true := by
  simp only [pat5At] at h
  split at h
  · split at h
    · exact absurd h (by simp)
    · split at h
      · exact absurd h (by simp)
      · split at h
        · rename_i hb a1 r1 hm a2 dg ds2 hds hafter
          simp only [Option.some.injEq, Prod.mk.injEq] at h
          obtain ⟨hc2, hds'⟩ := h
          subst hds'
          exact digitsTW_spec _ dg ds2 hds
        · exact absurd h (by simp)
  · exact absurd h (by simp)

/-- Pattern 5 quantities start with a digit. -/
theorem pat5_q (l : List Char) (d q : String) (h : pat5 l = some (d, q)) :
    quantityStartsDigit q := by
  simp only [pat5] at h
  split at h
  · rename_i a1 cap2 ds hsc
    simp only [Option.some.injEq, Prod.mk.injEq] at h
    obtain ⟨hd, hq⟩ := h
    subst hq
    obtain ⟨p, s, hf⟩ := scanFirstB_some pat5At none l (cap2, ds) hsc
    exact qsd_of_trim ds (pat5At_spec p s cap2 ds hf)
  · exact absurd h (by simp)

/-- The pattern-6 tail capture is a `numCapture` capture. -/
theorem pat6Tail_spec (r num : List Char) (h : pat6Tail r = some num) :
    (∃ c cs, num = c :: cs ∧ c.isDigit = true) ∧ ∀ x ∈ num, isNumLike x = true := by
  simp only [pat6Tail] at h
  split at h
  · exact absurd h (by simp)
  · split at h
    · split at h
      · rename_i a1 a2 a3 hws a4 num0 r2 hnc hnil
        simp only [Option.some.injEq] at h
        subst h
        exact numCapture_spec _ _ _ hnc
      · exact absurd h (by simp)
    · exact absurd h (by simp)

/-- Pattern 6 quantities start with a digit. -/
theorem pat6_q (l : List Char) (d q : String) (h : pat6 l = some (d, q)) :
    quantityStartsDigit q := by
  simp only [pat6] at h
  split at h
  · rename_i a1 g1 num0 hls
    simp only [Option.some.injEq, Prod.mk.injEq] at h
    obtain ⟨hd, hq⟩ := h
    subst hq
    obtain ⟨r, hf⟩ := lazyScan_some pat6Tail [] l g1 num0 hls
    exact qsd_of_trim num0 (pat6Tail_spec r num0 hf)
  · exact absurd h (by simp)

/-- Whatever pattern produced an item, its quantity starts with a digit. -/
theorem itemOfLine_quantity (l : String) (d q : String)
    (h : itemOfLine l = some (d, q)) : quantityStartsDigit q := by
  simp only [itemOfLine] at h
  split at h
  · exact absurd h (by simp)
  · split at h
    · rename_i a1 dq hp
      simp only [Option.some.injEq] at h
      subst h
      exact pat1_q l.data d q hp
    · split at h
      · rename_i a1 dq hp
        simp only [Option.some.injEq] at h
        subst h
        exact pat2_q l.data d q hp
      · split at h
        · rename_i a1 dq hp
          simp only [Option.some.injEq] at h
          subst h
          exact pat3_q l.data d q hp
        · split at h
          · rename_i a1 dq hp
            simp only [Option.some.injEq] at h
            subst h
            exact pat4_q l.data d q hp
          · split at h
            · rename_i a1 dq hp
              simp only [Option.some.injEq] at h
              subst h
              exact pat5_q l.data d q hp
            · exact pat6_q l.data d q h

/-- C10: every item produced by the item parser, under any id supply and
from any line list, has a non-empty quantity whose first character is a
decimal digit — the bare captured number for patterns 3 to 6, or the
number followed by " kg" for the two mass patterns. -/
theorem claim_C10 (g : Nat → String) (ls : List String) (it : TimesheetItem)
    (h : it ∈ parseItemsFromLines g ls) :
    it.quantity ≠ "" ∧ ∃ c cs, it.quantity.data = c :: cs ∧ c.isDigit = true := by
  obtain ⟨dq, hdq, hdesc, hq⟩ := attachIds_mem_rev g _ it h
  obtain ⟨l, hl, hline⟩ := List.mem_filterMap.mp hdq
  have hqsd : quantityStartsDigit dq.2 := itemOfLine_quantity l dq.1 dq.2 (by
    rw [hline])
  obtain ⟨c, cs, hdata, hd⟩ := hqsd
  rw [hq]
  refine ⟨?_, c, cs, hdata, hd⟩
  intro hempty
  rw [hempty] at hdata
  exact List.noConfusion hdata

/-- Witness for C10 at a concrete one-line input parsed by the generic
fallback pattern. -/
theorem claim_C10_witness :
    ((⟨"w", "Foo", "5"⟩ : TimesheetItem) ∈ parseItemsFromLines (fun _ => "w") ["Foo 5"]) ∧
    ((⟨"w", "Foo", "5"⟩ : TimesheetItem).quantity ≠ "" ∧
      ∃ c cs, (⟨"w", "Foo", "5"⟩ : TimesheetItem).quantity.data = c :: cs ∧
        c.isDigit = true) :=
  ⟨by decide, claim_C10 (fun _ => "w") ["Foo 5"] ⟨"w", "Foo", "5"⟩ (by decide)⟩

end TimesheetAuto
